import Mathlib

/-!
A shallow embedding of the Media Metadata Toolkit
(src/Metadata Toolkit/media_metadata.py) together with proofs about its
classification, sanitization, extraction, removal and logging behaviour.

Python values, files and filesystem effects are modelled explicitly:
pure helpers become Lean functions, fallible operations return
Except/Option, and third-party codec calls are abstracted by explicit
success/failure oracles carried in the environment records.
-/

namespace MediaToolkit

/-! ## String helpers

Models of the Python string/path primitives the toolkit uses:
str.lower (restricted to ASCII letters, which covers every extension in
the tables) and pathlib's PurePath.suffix / PurePath.stem.
-/

/-- Models str.lower applied characterwise (ASCII letters only, via Char.toLower). -/
def strLower (s : String) : String := String.mk (s.data.map Char.toLower)

/-- The characters strictly after the last occurrence of ch, or none if ch does not occur. -/
def afterLast (ch : Char) : List Char → Option (List Char)
  | [] => Option.none
  | c :: rest =>
    match afterLast ch rest with
    | some t => some t
    | Option.none => if c = ch then some rest else Option.none

/-- The final path component (the part after the last slash). -/
def lastComponent (s : List Char) : List Char :=
  match afterLast '/' s with
  | some t => t
  | Option.none => s

/-- Models PurePath.suffix: the extension of the final component including the
leading dot, or the empty string when the final component has no dot, starts
with its only dot, or ends in a dot. -/
def pathSuffix (p : String) : String :=
  match lastComponent p.data with
  | [] => ""
  | _ :: rest =>
    match afterLast '.' rest with
    | some t => if t.isEmpty then "" else String.mk ('.' :: t)
    | Option.none => ""

/-- Models PurePath.stem: the final component with the suffix removed. -/
def pathStem (p : String) : String :=
  let comp := lastComponent p.data
  String.mk (comp.take (comp.length - (pathSuffix p).data.length))

/-! ## Classification tables and media kinds

SUPPORTED_EXTENSIONS (media_metadata.py lines 130-135) and the extension
dispatch used by _extract_from_file (lines 226-235) and _is_supported
(lines 162-172).
-/

def imageExtensions : List String := [".jpg", ".jpeg", ".png", ".gif", ".tiff", ".bmp", ".webp"]

def pdfExtensions : List String := [".pdf"]

def audioExtensions : List String := [".mp3", ".wav", ".flac", ".aac", ".ogg"]

def videoExtensions : List String := [".mp4", ".mov", ".avi", ".mkv", ".webm"]

/-- All extensions of every table, as scanned by _is_supported when no media type is given. -/
def allSupportedExtensions : List String :=
  imageExtensions ++ pdfExtensions ++ audioExtensions ++ videoExtensions

/-- SUPPORTED_EXTENSIONS.get(media_type, []) (line 171). -/
def supportedExtensionsFor : String → List String
  | "image" => imageExtensions
  | "pdf" => pdfExtensions
  | "audio" => audioExtensions
  | "video" => videoExtensions
  | _ => []

/-- Models _get_extension (lines 162-164): lowercase file extension with dot. -/
def getExtension (p : String) : String := strLower (pathSuffix p)

/-- Models _is_supported (lines 166-172). -/
def isSupported (filePath : String) (mediaType : Option String) : Bool :=
  let ext := getExtension filePath
  match mediaType with
  | some t => decide (ext ∈ supportedExtensionsFor t)
  | Option.none => decide (ext ∈ allSupportedExtensions)

/-- The media kinds distinguished by the extraction dispatch. -/
inductive MediaKind where
  | image
  | pdf
  | audioVideo
  | unsupported
deriving DecidableEq

/-- The extension dispatch of _extract_from_file (lines 228-235), applied to an
already lowercased extension: image table first, then pdf, then the
concatenation of the audio and video tables, otherwise unsupported. -/
def classifyExt (ext : String) : MediaKind :=
  if ext ∈ imageExtensions then .image
  else if ext ∈ pdfExtensions then .pdf
  else if ext ∈ audioExtensions ++ videoExtensions then .audioVideo
  else .unsupported

/-- The classification operation on a bare extension string: the dispatch of
lines 228-235 composed with the lowercasing performed by _get_extension. -/
def classifyExtension (e : String) : MediaKind := classifyExt (strLower e)

/-- The classification of a file path: _get_extension then the dispatch. -/
def classifyPath (p : String) : MediaKind := classifyExt (getExtension p)

/-! ## Character lemmas -/

theorem char_toNat_ofNat_of_valid {n : Nat} (h : n.isValidChar) :
    (Char.ofNat n).toNat = n := by
  rw [Char.ofNat, dif_pos h]
  rfl

theorem toLower_eq_self_of_not_upper {c : Char} (h : ¬(c.toNat ≥ 65 ∧ c.toNat ≤ 90)) :
    c.toLower = c := by
  unfold Char.toLower
  exact if_neg h

theorem toLower_toNat_of_upper {c : Char} (h : c.toNat ≥ 65 ∧ c.toNat ≤ 90) :
    c.toLower.toNat = c.toNat + 32 := by
  unfold Char.toLower
  rw [if_pos h]
  exact char_toNat_ofNat_of_valid (Or.inl (by omega))

theorem toLower_idem (c : Char) : c.toLower.toLower = c.toLower := by
  by_cases h : c.toNat ≥ 65 ∧ c.toNat ≤ 90
  · apply toLower_eq_self_of_not_upper
    rw [toLower_toNat_of_upper h]
    omega
  · rw [toLower_eq_self_of_not_upper h, toLower_eq_self_of_not_upper h]

theorem strLower_idem (s : String) : strLower (strLower s) = strLower s := by
  unfold strLower
  apply congrArg String.mk
  rw [List.map_map]
  apply List.map_congr_left
  intro c _
  exact toLower_idem c

/-! ## UTF-8 decoding

A model of Python's bytes.decode("utf-8", errors=...) used by the
sanitizer (line 189). In strict mode an invalid sequence raises
(returns Option.none); with errors="replace" the decoder substitutes
U+FFFD for the offending byte and continues, so it is total.
-/

/-- Is the byte a UTF-8 continuation byte (0x80 - 0xBF)? -/
def isContinuationByte (b : Nat) : Bool := decide (0x80 ≤ b ∧ b ≤ 0xBF)

/-- Extra constraints on the first continuation byte of a 3-byte sequence:
no overlong encodings (lead 0xE0) and no surrogates (lead 0xED). -/
def utf8ThreeOk (b b2 : Nat) : Bool :=
  (decide (b ≠ 0xE0) || decide (0xA0 ≤ b2)) && (decide (b ≠ 0xED) || decide (b2 ≤ 0x9F))

/-- Extra constraints on the first continuation byte of a 4-byte sequence:
no overlong encodings (lead 0xF0) and nothing above U+10FFFF (lead 0xF4). -/
def utf8FourOk (b b2 : Nat) : Bool :=
  (decide (b ≠ 0xF0) || decide (0x90 ≤ b2)) && (decide (b ≠ 0xF4) || decide (b2 ≤ 0x8F))

/-- Decode one UTF-8 unit whose lead byte is b and whose following bytes start
rest: the decoded character (or none when the unit is invalid) paired with how
many continuation bytes the unit consumed from rest. -/
def utf8Step (b : Nat) (rest : List Nat) : Option Char × Nat :=
  if b < 0x80 then (some (Char.ofNat b), 0)
  else if b < 0xC2 then (Option.none, 0)
  else if b < 0xE0 then
    match rest with
    | b2 :: _ =>
      if isContinuationByte b2 then
        (some (Char.ofNat ((b - 0xC0) * 0x40 + (b2 - 0x80))), 1)
      else (Option.none, 0)
    | [] => (Option.none, 0)
  else if b < 0xF0 then
    match rest with
    | b2 :: b3 :: _ =>
      if isContinuationByte b2 && isContinuationByte b3 && utf8ThreeOk b b2 then
        (some (Char.ofNat ((b - 0xE0) * 0x1000 + (b2 - 0x80) * 0x40 + (b3 - 0x80))), 2)
      else (Option.none, 0)
    | _ => (Option.none, 0)
  else if b < 0xF5 then
    match rest with
    | b2 :: b3 :: b4 :: _ =>
      if isContinuationByte b2 && isContinuationByte b3 && isContinuationByte b4
          && utf8FourOk b b2 then
        (some (Char.ofNat
          ((b - 0xF0) * 0x40000 + (b2 - 0x80) * 0x1000 + (b3 - 0x80) * 0x40 + (b4 - 0x80))), 3)
      else (Option.none, 0)
    | _ => (Option.none, 0)
  else (Option.none, 0)

/-- The decoding loop, structurally recursive on a fuel bound; the fuel is
instantiated with the length of the byte list, which always suffices because
every step consumes at least the lead byte. In strict mode an invalid unit
aborts with none; in replace mode it yields U+FFFD and resumes after the lead
byte. -/
def utf8DecodeAux (strict : Bool) : Nat → List Nat → Option (List Char)
  | _, [] => some []
  | 0, _ :: _ => Option.none
  | Nat.succ fuel, b :: rest =>
    match utf8Step b rest with
    | (some c, k) => (utf8DecodeAux strict fuel (rest.drop k)).map (fun cs => c :: cs)
    | (Option.none, _) =>
      if strict then Option.none
      else (utf8DecodeAux strict fuel rest).map (fun cs => Char.ofNat 0xFFFD :: cs)

/-- Models bytes.decode("utf-8", errors): strict = true is errors="strict"
(raises on invalid input, modelled as none); strict = false is
errors="replace". -/
def utf8Decode (strict : Bool) (bs : List Nat) : Option (List Char) :=
  utf8DecodeAux strict bs.length bs

theorem utf8DecodeAux_replace_isSome :
    ∀ (fuel : Nat) (bs : List Nat), bs.length ≤ fuel → (utf8DecodeAux false fuel bs).isSome = true := by
  intro fuel
  induction fuel with
  | zero =>
    intro bs h
    match bs with
    | [] => rfl
  | succ fuel ih =>
    intro bs h
    match bs with
    | [] => rfl
    | b :: rest =>
      rw [utf8DecodeAux]
      match utf8Step b rest with
      | (some c, k) =>
        have hlen : (rest.drop k).length ≤ fuel := by
          rw [List.length_drop]
          simp only [List.length_cons] at h
          omega
        dsimp only
        cases hs : utf8DecodeAux false fuel (rest.drop k) with
        | none => exact absurd ((hs ▸ ih _ hlen : (Option.none : Option (List Char)).isSome = true)) (by simp)
        | some cs => rfl
      | (Option.none, k) =>
        have hlen : rest.length ≤ fuel := by
          simp only [List.length_cons] at h
          omega
        dsimp only
        simp only [Bool.false_eq_true, if_false]
        cases hs : utf8DecodeAux false fuel rest with
        | none => exact absurd ((hs ▸ ih _ hlen : (Option.none : Option (List Char)).isSome = true)) (by simp)
        | some cs => rfl

/-- Replacement-mode decoding never fails: the fallback branch of the
sanitizer is unreachable. -/
theorem utf8Decode_replace_isSome (bs : List Nat) : (utf8Decode false bs).isSome = true :=
  utf8DecodeAux_replace_isSome bs.length bs (Nat.le_refl _)

/-- A nonempty byte string decodes (with replacement) to a nonempty character list. -/
theorem utf8Decode_replace_ne_nil {b : Nat} {rest : List Nat} {cs : List Char}
    (h : utf8Decode false (b :: rest) = some cs) : cs ≠ [] := by
  rw [utf8Decode, List.length_cons, utf8DecodeAux] at h
  revert h
  match utf8Step b rest with
  | (some c, k) =>
    dsimp only
    intro h
    rcases Option.map_eq_some'.mp h with ⟨cs', _, hcons⟩
    intro hnil
    rw [hnil] at hcons
    exact List.cons_ne_nil _ _ hcons
  | (Option.none, k) =>
    dsimp only
    simp only [Bool.false_eq_true, if_false]
    intro h
    rcases Option.map_eq_some'.mp h with ⟨cs', _, hcons⟩
    intro hnil
    rw [hnil] at hcons
    exact List.cons_ne_nil _ _ hcons

/-- In strict mode decoding genuinely can fail (0xFF is never valid in UTF-8),
so treating the decode call as fallible is faithful. -/
theorem utf8Decode_strict_can_fail : utf8Decode true [0xFF] = Option.none := rfl

/-! ## Python values and the metadata sanitizer

_clean_metadata_dict (media_metadata.py lines 174-194) walks the
top-level items of a metadata dictionary and normalizes each value.
-/

/-- The Python values that occur in metadata records. Byte strings carry their
bytes; nested containers carry unrestricted Python values (dictionary keys in
nested containers may themselves be arbitrary values, e.g. numeric EXIF tag
ids). -/
inductive PyValue where
  | none
  | str (s : String)
  | bytes (bs : List Nat)
  | int (n : Int)
  | boolean (b : Bool)
  | list (xs : List PyValue)
  | tup (xs : List PyValue)
  | dict (entries : List (PyValue × PyValue))

/-- Models the per-value normalization of _clean_metadata_dict (lines 177-193):
None becomes "N/A"; an empty str/list/dict becomes "Empty String" / [] / /
empty dict respectively (nonempty ones fall through unchanged, so the list and
dict branches are the identity); a byte string is decoded with
errors="replace", falling back to "Binary Data" when the decode call raises;
every other value passes through unchanged. Tuples, ints and booleans are not
instances of (str, list, dict) or bytes, so they always pass through. -/
def cleanValue : PyValue → PyValue
  | .none => .str "N/A"
  | .str s => if s = "" then .str "Empty String" else .str s
  | .list xs =>
    match xs with
    | [] => .list []
    | _ :: _ => .list xs
  | .dict entries =>
    match entries with
    | [] => .dict []
    | _ :: _ => .dict entries
  | .bytes bs =>
    match utf8Decode false bs with
    | some cs => .str (String.mk cs)
    | Option.none => .str "Binary Data"
  | .int n => .int n
  | .boolean b => .boolean b
  | .tup xs => .tup xs

/-- Models _clean_metadata_dict (lines 174-194): rebuild the record applying
cleanValue to each top-level value, keys and order preserved. -/
def cleanMetadataDict (m : List (String × PyValue)) : List (String × PyValue) :=
  m.map (fun kv => (kv.1, cleanValue kv.2))

/-- The values outside the special cases enumerated by the sanitizer:
not None, not the empty string, not a byte string, not the empty
list/dict. -/
def isOtherValue : PyValue → Bool
  | .none => false
  | .str s => decide (s ≠ "")
  | .bytes _ => false
  | .list xs => !xs.isEmpty
  | .dict entries => !entries.isEmpty
  | .int _ => true
  | .boolean _ => true
  | .tup _ => true

/-- The sanitizer output for a single value is a fixpoint of the sanitizer
except when the input was the empty byte string (which decodes to "" and is
then remapped to "Empty String" by a second pass). -/
theorem cleanValue_fix (v : PyValue) (hv : v ≠ PyValue.bytes []) :
    cleanValue (cleanValue v) = cleanValue v := by
  match v with
  | .none => rfl
  | .str s =>
    by_cases hs : s = ""
    · subst hs; rfl
    · simp only [cleanValue, if_neg hs]
  | .list xs => cases xs <;> rfl
  | .dict entries => cases entries <;> rfl
  | .int n => rfl
  | .boolean b => rfl
  | .tup xs => rfl
  | .bytes bs =>
    match bs with
    | [] => exact absurd rfl hv
    | b :: rest =>
      rcases Option.isSome_iff_exists.mp (utf8Decode_replace_isSome (b :: rest)) with ⟨cs, hcs⟩
      have hne : cs ≠ [] := utf8Decode_replace_ne_nil hcs
      have hsne : String.mk cs ≠ "" := by
        intro habs
        exact hne (congrArg String.data habs)
      simp only [cleanValue, hcs, if_neg hsne]

/-! ## Error kinds

The exception classes of media_metadata.py (lines 43-71). generic is the
base MediaMetadataError itself, the kind a caller observes when the code
raises the base class directly.
-/

inductive ErrKind where
  | fileOperation
  | network
  | invalidInput
  | unsupportedMedia
  | metadataRemoval
  | generic
deriving DecidableEq

/-- A metadata record: ordered string-keyed mapping at top level. -/
abbrev Record := List (String × PyValue)

/-! ## Extraction from a local file

MediaMetadataExtractor.extract (lines 202-219) and _extract_from_file
(lines 221-235). The file system state relevant to one extraction and the
outcome of the per-kind third-party codec decode are carried in a
LocalFile record: decodeResult is the oracle for what
_extract_image_metadata / _extract_pdf_metadata / _extract_av_metadata
would produce (or raise) on this file.
-/

structure LocalFile where
  name : String
  present : Bool
  readable : Bool
  decodeResult : Except ErrKind Record

/-- Models _validate_file (lines 151-160) with check_read=True,
check_write=False: a missing path or missing read permission raises
FileOperationError. -/
def validateFile (f : LocalFile) : Option ErrKind :=
  if f.present = false then some .fileOperation
  else if f.readable = false then some .fileOperation
  else Option.none

/-- Models _extract_from_file (lines 221-235): validate, then dispatch on the
lowercased extension; an extension in none of the tables raises
UnsupportedMediaError (line 235). The second component records the paths the
call writes to: every branch of this code path only reads, so it is empty
throughout. -/
def extractFromFile (f : LocalFile) : Except ErrKind Record × List String :=
  match validateFile f with
  | some e => (.error e, [])
  | Option.none =>
    match classifyPath f.name with
    | .unsupported => (.error .unsupportedMedia, [])
    | _ => (f.decodeResult, [])

/-- Models the public extract (lines 202-219) on a local file: the try/except
wrapper catches every exception (including UnsupportedMediaError, a subclass
of Exception) and raises a fresh MediaMetadataError — the base, generic kind —
in its place. -/
def extract (f : LocalFile) : Except ErrKind Record × List String :=
  match extractFromFile f with
  | (.ok m, w) => (.ok m, w)
  | (.error _, w) => (.error .generic, w)

/-! ## Extraction from a URL

_extract_from_url (lines 237-251): download to a temporary file, extract
from it inside a try whose finally block attempts to unlink the temporary
file, logging (not raising) a warning when the unlink itself fails.
-/

structure UrlEnv where
  url : String
  contentType : String
  downloadOk : Bool
  fileResult : Except ErrKind Record
  unlinkOk : Bool

structure UrlOutcome where
  result : Except ErrKind Record
  unlinkAttempted : Bool
  tempDeleted : Bool
  warningCount : Nat

/-- Models dict.update with a single key: replace in place if the key exists,
else append. -/
def dictUpdate (m : Record) (k : String) (v : PyValue) : Record :=
  if m.any (fun kv => kv.1 == k) then
    m.map (fun kv => if kv.1 == k then (k, v) else kv)
  else m ++ [(k, v)]

/-- Models _extract_from_url (lines 237-251). downloadOk is the oracle for
_download_url (lines 253-278, raising NetworkError on failure); fileResult
the oracle for _extract_from_file on the downloaded file; unlinkOk for
temp_file.unlink(). The finally block runs on success and failure of the
extraction; a failed unlink only increments the warning count. -/
def extractFromUrl (env : UrlEnv) : UrlOutcome :=
  if env.downloadOk = false then
    { result := .error .network, unlinkAttempted := false, tempDeleted := false,
      warningCount := 0 }
  else
    let r : Except ErrKind Record :=
      match env.fileResult with
      | .ok m =>
        .ok (dictUpdate (dictUpdate m "source_url" (.str env.url))
              "content_type" (.str env.contentType))
      | .error e => .error e
    { result := r
      unlinkAttempted := true
      tempDeleted := env.unlinkOk
      warningCount := if env.unlinkOk then 0 else 1 }

/-! ## Metadata removal, in-place mode

remove_metadata with in_place=True (lines 481-489):
  output_path = stem_temp sibling path
  result = _remove_image_metadata(file_path, output_path)   -- may raise
  try:
    file_path.unlink()
    output_path.rename(file_path)
  except -> MetadataRemovalError
The two relevant paths of the filesystem are modelled explicitly:
origPath is the content at the original file path, tempPath the content at
the sibling stem_temp path. The fail oracle selects which step (if any)
raises.
-/

inductive InPlaceStepFail where
  | stripWrite
  | unlinkOrig
  | renameTemp
deriving DecidableEq

structure InPlaceState where
  origPath : Option String
  tempPath : Option String
deriving DecidableEq

/-- _remove_image_metadata writing the re-encoded image to the temp path. -/
def stripToTemp (st : InPlaceState) (stripped : String) (ok : Bool) :
    Except ErrKind InPlaceState :=
  if ok then .ok { st with tempPath := some stripped } else .error .metadataRemoval

/-- file_path.unlink() (line 485): removes the content at the original path. -/
def unlinkOriginal (st : InPlaceState) (ok : Bool) : Except ErrKind InPlaceState :=
  if ok then .ok { st with origPath := Option.none } else .error .metadataRemoval

/-- output_path.rename(file_path) (line 486): moves the temp content onto the
original path. -/
def renameTempToOriginal (st : InPlaceState) (ok : Bool) : Except ErrKind InPlaceState :=
  if ok then .ok { origPath := st.tempPath, tempPath := Option.none }
  else .error .metadataRemoval

/-- Models remove_metadata with in_place=True (lines 481-489), starting from a
filesystem holding the original content at the original path. A failing step
raises MetadataRemovalError (raised directly by _remove_image_metadata at line
564, or by the wrapper at line 489) and leaves the filesystem as the completed
steps left it. -/
def removeMetadataInPlace (orig stripped : String) (fail : Option InPlaceStepFail) :
    Except ErrKind Unit × InPlaceState :=
  let st0 : InPlaceState := { origPath := some orig, tempPath := Option.none }
  match stripToTemp st0 stripped (fail != some .stripWrite) with
  | .error e => (.error e, st0)
  | .ok st1 =>
    match unlinkOriginal st1 (fail != some .unlinkOrig) with
    | .error e => (.error e, st1)
    | .ok st2 =>
      match renameTempToOriginal st2 (fail != some .renameTemp) with
      | .error e => (.error e, st2)
      | .ok st3 => (.ok (), st3)

/-! ## Metadata removal, output mode

remove_metadata with in_place=False (lines 472-493 else branch) and
_remove_image_metadata (lines 542-564). img.save(output_path, ...) writes
the destination unconditionally — the code contains no check whether
output_path already exists.
-/

structure OutputModeEnv where
  srcName : String
  srcPresent : Bool
  srcReadable : Bool
  explicitOutput : Option String
  destBefore : Option String
  stripOk : Bool
  strippedContent : String

/-- Models _remove_image_metadata (lines 542-564) for a given destination:
on success the destination holds the re-encoded image, whatever was there
before; on failure MetadataRemovalError is raised. -/
def removeImageMetadata (destBefore : Option String) (stripOk : Bool) (stripped : String) :
    Except ErrKind Unit × Option String :=
  if stripOk then (.ok (), some stripped)
  else (.error .metadataRemoval, destBefore)

/-- The destination path used by remove_metadata when in_place=False (lines
491-492): the explicit output_path if given, else the derived
stem_clean+suffix sibling. -/
def outputPathOf (env : OutputModeEnv) : String :=
  match env.explicitOutput with
  | some p => p
  | Option.none => pathStem env.srcName ++ "_clean" ++ pathSuffix env.srcName

/-- Models remove_metadata with in_place=False (lines 455-493): validate the
source, check the image table, then write the destination via
_remove_image_metadata. Returns the raised error or the output path, and the
content at the destination afterwards. -/
def removeMetadataToOutput (env : OutputModeEnv) : Except ErrKind String × Option String :=
  if env.srcPresent = false then (.error .fileOperation, env.destBefore)
  else if env.srcReadable = false then (.error .fileOperation, env.destBefore)
  else if isSupported env.srcName (some "image") = false then
    (.error .unsupportedMedia, env.destBefore)
  else
    match removeImageMetadata env.destBefore env.stripOk env.strippedContent with
    | (.ok _, destAfter) => (.ok (outputPathOf env), destAfter)
    | (.error e, destAfter) => (.error e, destAfter)

/-! ## Metadata removal, directory batch

remove_metadata_from_directory (lines 495-540): iterate over the
directory entries in order; recurse into subdirectories when recursive,
extending the result list with the child results; for each supported file
run remove_metadata inside a try that logs a warning and skips the file
on any exception. removeOk is the per-file oracle for whether the try
body succeeds.
-/

inductive FsEntry where
  | file (name : String) (removeOk : Bool)
  | dir (name : String) (entries : List FsEntry)

mutual

/-- One iteration of the loop body (lines 523-538) for a single directory
item: result is (processed paths, warning log messages). -/
def processEntry (inPrefix outPrefix : String) (recursive : Bool) :
    FsEntry → List String × List String
  | .file name ok =>
    if isSupported name (some "image") then
      if ok then ([outPrefix ++ "/" ++ name], [])
      else ([], ["Skipped " ++ inPrefix ++ "/" ++ name])
    else ([], [])
  | .dir name sub =>
    if recursive then
      processEntries (inPrefix ++ "/" ++ name) (outPrefix ++ "/" ++ name) recursive sub
    else ([], [])

/-- The iteration over dir_path.iterdir() (line 523), accumulating
processed_files with extend/append in order. -/
def processEntries (inPrefix outPrefix : String) (recursive : Bool) :
    List FsEntry → List String × List String
  | [] => ([], [])
  | e :: rest =>
    let a := processEntry inPrefix outPrefix recursive e
    let b := processEntries inPrefix outPrefix recursive rest
    (a.1 ++ b.1, a.2 ++ b.2)

end

/-! ## Facade logging

MediaMetadataToolkit.process (lines 574-625) brackets the dispatch in
log_operation_start / log_operation_end markers. The body of the try
block is abstracted as its outcome: every branch of the try suite exits
via return or raise. In Python a return from the try suite skips the
try-else clause, so the log_operation_end(operation, success=True) call
on line 625 is never executed; the except handler (lines 621-623) logs
the failure end marker and re-raises.
-/

inductive LogMark where
  | opStart (operation : String)
  | opEndSuccess (operation : String)
  | opEndFailure (operation : String)
deriving DecidableEq

/-- Models process (lines 574-625): the returned value or raised error of the
try body, paired with the log markers emitted, in order. -/
def process (operation : String) (body : Except ErrKind Record) :
    Except ErrKind Record × List LogMark :=
  match body with
  | .ok v => (.ok v, [.opStart operation])
  | .error e => (.error e, [.opStart operation, .opEndFailure operation])

/-! ## Claim C1: in-place replacement safety -/

/-- C1: the claim states that in-place removal only unlinks the original after
the stripped copy is fully written and that the replace step is an atomic
rename, so the original path is never left missing. The code (lines 484-486)
unlinks the original and only then renames the temp file into place: when the
rename step fails after a successful unlink, the original path holds nothing
and the stripped data sits only at the sibling temp path. The first conjunct
exhibits that state; the remaining conjuncts show the other failure points and
the success path (the original is indeed only removed after the stripped copy
was written, but the delete-then-rename ordering is not atomic). -/
theorem inPlace_rename_failure_loses_original :
    removeMetadataInPlace "ORIGINAL" "STRIPPED" (some InPlaceStepFail.renameTemp)
      = (Except.error ErrKind.metadataRemoval,
         { origPath := Option.none, tempPath := some "STRIPPED" })
    ∧ (removeMetadataInPlace "ORIGINAL" "STRIPPED" Option.none).2
      = { origPath := some "STRIPPED", tempPath := Option.none }
    ∧ (removeMetadataInPlace "ORIGINAL" "STRIPPED" (some InPlaceStepFail.stripWrite)).2
      = { origPath := some "ORIGINAL", tempPath := Option.none }
    ∧ (removeMetadataInPlace "ORIGINAL" "STRIPPED" (some InPlaceStepFail.unlinkOrig)).2
      = { origPath := some "ORIGINAL", tempPath := some "STRIPPED" } :=
  ⟨rfl, rfl, rfl, rfl⟩

/-! ## Claim C2: output-mode destination handling -/

/-- A concrete output-mode removal whose destination already holds content. -/
def overwriteSample : OutputModeEnv :=
  { srcName := "photo.jpg", srcPresent := true, srcReadable := true,
    explicitOutput := some "out.jpg", destBefore := some "OLD",
    stripOk := true, strippedContent := "STRIPPED" }

/-- C2 counterexample: with an existing destination the operation succeeds and
replaces the destination content — it does not fail with FileOperation and
does not leave the destination unchanged. -/
theorem output_mode_overwrites_existing_destination :
    (removeMetadataToOutput overwriteSample).1 = Except.ok "out.jpg"
    ∧ (removeMetadataToOutput overwriteSample).2 = some "STRIPPED"
    ∧ (removeMetadataToOutput overwriteSample).2 ≠ some "OLD" := by
  refine ⟨rfl, rfl, ?_⟩
  rw [show (removeMetadataToOutput overwriteSample).2 = some "STRIPPED" from rfl]
  intro h
  injection h with h1
  exact absurd h1 (by decide)

/-- C2 amended: for explicit-output and derived-output removal, the code never
checks whether the destination exists. Whenever the source validates, is a
supported image and the re-encode succeeds, the destination is written
unconditionally — an existing destination is silently overwritten and no
FileOperation error is raised. -/
theorem output_mode_writes_unconditionally (env : OutputModeEnv)
    (hp : env.srcPresent = true) (hr : env.srcReadable = true)
    (hs : isSupported env.srcName (some "image") = true)
    (hw : env.stripOk = true) :
    removeMetadataToOutput env = (Except.ok (outputPathOf env), some env.strippedContent) := by
  simp [removeMetadataToOutput, removeImageMetadata, hp, hr, hs, hw]

/-- Witness for C2 amended at a concrete environment with an occupied
destination. -/
theorem output_mode_writes_unconditionally_witness :
    removeMetadataToOutput overwriteSample = (Except.ok "out.jpg", some "STRIPPED") :=
  output_mode_writes_unconditionally overwriteSample rfl rfl (by decide) rfl

/-! ## Claim C3: error kind for unsupported extensions -/

/-- A concrete existing, readable file with an extension in no table. -/
def unsupportedSample : LocalFile :=
  { name := "data.xyz", present := true, readable := true, decodeResult := .ok [] }

/-- C3 counterexample: for an existing readable file of unsupported extension the
exception delivered by extract is the generic MediaMetadataError, not
UnsupportedMedia — the try/except wrapper of extract (lines 217-219) catches
the inner UnsupportedMediaError and raises a fresh base-class error. -/
theorem extract_unsupported_delivers_generic_kind :
    (extract unsupportedSample).1 = Except.error ErrKind.generic
    ∧ (extract unsupportedSample).1 ≠ Except.error ErrKind.unsupportedMedia := by
  refine ⟨rfl, ?_⟩
  rw [show (extract unsupportedSample).1 = Except.error ErrKind.generic from rfl]
  intro h
  injection h with h1
  exact absurd h1 (by decide)

/-- C3 amended: for every existing readable file whose extension classifies as
unsupported, the internal _extract_from_file raises UnsupportedMedia and no
file is written, but the public extract re-wraps the exception so the caller
receives the generic MediaMetadataError kind (still with no file written). -/
theorem extract_unsupported_wrapped_generic (f : LocalFile)
    (hp : f.present = true) (hr : f.readable = true)
    (hu : classifyPath f.name = MediaKind.unsupported) :
    extractFromFile f = (Except.error ErrKind.unsupportedMedia, [])
    ∧ extract f = (Except.error ErrKind.generic, []) := by
  have h1 : extractFromFile f = (Except.error ErrKind.unsupportedMedia, []) := by
    simp [extractFromFile, validateFile, hp, hr, hu]
  exact ⟨h1, by simp [extract, h1]⟩

/-- Witness for C3 amended at the concrete unsupported file. -/
theorem extract_unsupported_wrapped_generic_witness :
    extractFromFile unsupportedSample = (Except.error ErrKind.unsupportedMedia, [])
    ∧ extract unsupportedSample = (Except.error ErrKind.generic, []) :=
  extract_unsupported_wrapped_generic unsupportedSample rfl rfl (by decide)

/-! ## Claim C4: start/end log markers -/

/-- C4: the claim states process emits a start marker before the work and an end
marker in both outcomes. The code emits the start marker and, on a raised
exception, the failure end marker; but every branch of the try suite exits via
return, which in Python skips the try-else clause, so on normal return no
success end marker is ever emitted. The first two conjuncts exhibit a
successful operation whose log contains no end marker at all; the last two
characterize the logs of both outcomes for every operation. -/
theorem process_success_emits_no_end_marker :
    (process "extract" (.ok [])).2 = [LogMark.opStart "extract"]
    ∧ LogMark.opEndSuccess "extract" ∉ (process "extract" (.ok [])).2
    ∧ (∀ (op : String) (v : Record), (process op (.ok v)).2 = [LogMark.opStart op])
    ∧ (∀ (op : String) (e : ErrKind),
        (process op (.error e)).2 = [LogMark.opStart op, LogMark.opEndFailure op]) :=
  ⟨rfl, by decide, fun _ _ => rfl, fun _ _ => rfl⟩

/-! ## Claim C5: sanitizer idempotence -/

/-- C5 counterexample: sanitization is not idempotent on every record. The
empty byte string decodes (errors="replace") to the empty string on the first
pass, which the second pass remaps to "Empty String". -/
theorem sanitize_not_idempotent_on_empty_bytes :
    cleanMetadataDict (cleanMetadataDict [("comment", PyValue.bytes [])])
      ≠ cleanMetadataDict [("comment", PyValue.bytes [])] := by
  intro h
  rw [show cleanMetadataDict [("comment", PyValue.bytes [])]
        = [("comment", PyValue.str "")] from rfl] at h
  rw [show cleanMetadataDict [("comment", PyValue.str "")]
        = [("comment", PyValue.str "Empty String")] from rfl] at h
  injection h with h1 _
  injection h1 with _ h2
  injection h2 with h3
  exact absurd h3 (by decide)

/-- C5 amended: the sanitizer is idempotent on every record none of whose
top-level values is the empty byte string; the empty byte string is the sole
non-fixpoint source, because it sanitizes to "" on the first pass and to
"Empty String" on the second. -/
theorem sanitize_idempotent_without_empty_bytes (m : Record)
    (h : ∀ kv ∈ m, kv.2 ≠ PyValue.bytes []) :
    cleanMetadataDict (cleanMetadataDict m) = cleanMetadataDict m := by
  unfold cleanMetadataDict
  rw [List.map_map]
  apply List.map_congr_left
  intro kv hkv
  have hfix := cleanValue_fix kv.2 (h kv hkv)
  simp [Function.comp, hfix]

/-- Witness for C5 amended at a concrete record exercising the None, empty
string, nonempty byte string and pass-through branches. -/
theorem sanitize_idempotent_without_empty_bytes_witness :
    cleanMetadataDict (cleanMetadataDict
        [("author", PyValue.none), ("title", PyValue.str ""),
         ("raw", PyValue.bytes [0x41, 0xFF]), ("pages", PyValue.int 3)])
      = cleanMetadataDict
        [("author", PyValue.none), ("title", PyValue.str ""),
         ("raw", PyValue.bytes [0x41, 0xFF]), ("pages", PyValue.int 3)] :=
  sanitize_idempotent_without_empty_bytes _ (by
    intro kv hkv
    rcases List.mem_cons.mp hkv with rfl | hkv
    · exact nofun
    rcases List.mem_cons.mp hkv with rfl | hkv
    · exact nofun
    rcases List.mem_cons.mp hkv with rfl | hkv
    · intro habs
      injection habs with h1
      exact List.cons_ne_nil _ _ h1
    rcases List.mem_cons.mp hkv with rfl | hkv
    · exact nofun
    exact absurd hkv (List.not_mem_nil _))

/-! ## Claim C6: deterministic sanitizer mapping -/

/-- C6: the sanitizer maps each top-level value deterministically: None to
"N/A", the empty string to "Empty String", the empty list to the empty list,
the empty dict to the empty dict, every byte string to its UTF-8
replacement-decoded string (one branch of the decode-or-"Binary Data"
disjunction the claim allows), and every other value passes through
unchanged. -/
theorem sanitizer_value_mapping :
    cleanValue PyValue.none = PyValue.str "N/A"
    ∧ cleanValue (PyValue.str "") = PyValue.str "Empty String"
    ∧ cleanValue (PyValue.list []) = PyValue.list []
    ∧ cleanValue (PyValue.dict []) = PyValue.dict []
    ∧ (∀ bs, ∃ cs, utf8Decode false bs = some cs
        ∧ cleanValue (PyValue.bytes bs) = PyValue.str (String.mk cs))
    ∧ (∀ v, isOtherValue v = true → cleanValue v = v) := by
  refine ⟨rfl, rfl, rfl, rfl, ?_, ?_⟩
  · intro bs
    rcases Option.isSome_iff_exists.mp (utf8Decode_replace_isSome bs) with ⟨cs, hcs⟩
    exact ⟨cs, hcs, by simp [cleanValue, hcs]⟩
  · intro v hv
    match v with
    | .str s =>
      have hs : ¬(s = "") := by simpa [isOtherValue] using hv
      simp [cleanValue, hs]
    | .list xs => cases xs <;> rfl
    | .dict es => cases es <;> rfl
    | .int n => rfl
    | .boolean b => rfl
    | .tup xs => rfl
    | .none => exact absurd hv (by decide)
    | .bytes bs => exact absurd hv (by simp [isOtherValue])

/-- Witness for C6 at concrete pass-through and byte-string values. -/
theorem sanitizer_value_mapping_witness :
    cleanValue (PyValue.int 7) = PyValue.int 7
    ∧ cleanValue (PyValue.str "JPEG") = PyValue.str "JPEG" :=
  ⟨sanitizer_value_mapping.2.2.2.2.2 (PyValue.int 7) rfl,
   sanitizer_value_mapping.2.2.2.2.2 (PyValue.str "JPEG") (by decide)⟩

/-! ## Claim C7: temporary file lifetime for URL extraction -/

/-- C7: for a completed download the finally block always attempts to delete
the temporary file (success and failure of the extraction alike); a successful
unlink deletes it with no warning, a failed unlink leaves one warning; and the
operation's result is identical whether or not the unlink succeeds. -/
theorem url_temp_file_cleanup (env : UrlEnv) (hd : env.downloadOk = true) :
    (extractFromUrl env).unlinkAttempted = true
    ∧ (env.unlinkOk = true →
        (extractFromUrl env).tempDeleted = true ∧ (extractFromUrl env).warningCount = 0)
    ∧ (env.unlinkOk = false →
        (extractFromUrl env).tempDeleted = false ∧ (extractFromUrl env).warningCount = 1)
    ∧ (∀ b : Bool,
        (extractFromUrl { env with unlinkOk := b }).result = (extractFromUrl env).result) := by
  refine ⟨?_, ?_, ?_, ?_⟩
  · simp [extractFromUrl, hd]
  · intro hu; simp [extractFromUrl, hd, hu]
  · intro hu; simp [extractFromUrl, hd, hu]
  · intro b; simp [extractFromUrl, hd]

/-- A concrete URL extraction whose download succeeds and whose unlink fails. -/
def urlFailSample : UrlEnv :=
  { url := "http://host/a.jpg", contentType := "image/jpeg",
    downloadOk := true, fileResult := .ok [], unlinkOk := false }

/-- Witness for C7 at a concrete environment whose unlink fails. -/
theorem url_temp_file_cleanup_witness :
    (extractFromUrl urlFailSample).unlinkAttempted = true
    ∧ (extractFromUrl urlFailSample).tempDeleted = false
    ∧ (extractFromUrl urlFailSample).warningCount = 1 := by
  have h := url_temp_file_cleanup urlFailSample rfl
  exact ⟨h.1, (h.2.2.1 rfl).1, (h.2.2.1 rfl).2⟩

/-! ## Claim C10: the byte-string branch of the sanitizer is total -/

/-- C10: decoding with errors="replace" never raises, so the sanitizer's
"Binary Data" fallback is unreachable: every byte-string value sanitizes to
its replacement-decoded string. In particular the empty byte string sanitizes
to the empty string — neither to "Binary Data" nor to "Empty String". -/
theorem bytes_branch_never_binary_data :
    (∀ bs, ∃ cs, utf8Decode false bs = some cs
        ∧ cleanValue (PyValue.bytes bs) = PyValue.str (String.mk cs))
    ∧ cleanValue (PyValue.bytes []) = PyValue.str ""
    ∧ cleanValue (PyValue.bytes []) ≠ PyValue.str "Binary Data"
    ∧ cleanValue (PyValue.bytes []) ≠ PyValue.str "Empty String" := by
  refine ⟨?_, rfl, ?_, ?_⟩
  · intro bs
    rcases Option.isSome_iff_exists.mp (utf8Decode_replace_isSome bs) with ⟨cs, hcs⟩
    exact ⟨cs, hcs, by simp [cleanValue, hcs]⟩
  · rw [show cleanValue (PyValue.bytes []) = PyValue.str "" from rfl]
    intro h
    injection h with h1
    exact absurd h1 (by decide)
  · rw [show cleanValue (PyValue.bytes []) = PyValue.str "" from rfl]
    intro h
    injection h with h1
    exact absurd h1 (by decide)

/-! ## Claim C8: directory batch partial-failure semantics -/

/-- C8: during directory batch removal a per-file failure never aborts the
batch. The first conjunct shows processing distributes over the entry
sequence, so every entry after a failure is still processed and its results
appended; the second shows a failing supported file contributes no output path
and exactly one skip log entry; the third shows a succeeding supported file
contributes its destination path; the fourth shows that with recursive=true a
subdirectory contributes exactly its recursively computed results, merged into
the parent's sequence. -/
theorem directory_batch_partial_failure :
    (∀ (ip op : String) (r : Bool) (xs ys : List FsEntry),
        processEntries ip op r (xs ++ ys)
          = ((processEntries ip op r xs).1 ++ (processEntries ip op r ys).1,
             (processEntries ip op r xs).2 ++ (processEntries ip op r ys).2))
    ∧ (∀ (ip op : String) (r : Bool) (name : String),
        isSupported name (some "image") = true →
          processEntry ip op r (.file name false)
            = ([], ["Skipped " ++ ip ++ "/" ++ name]))
    ∧ (∀ (ip op : String) (r : Bool) (name : String),
        isSupported name (some "image") = true →
          processEntry ip op r (.file name true) = ([op ++ "/" ++ name], []))
    ∧ (∀ (ip op name : String) (sub : List FsEntry),
        processEntry ip op true (.dir name sub)
          = processEntries (ip ++ "/" ++ name) (op ++ "/" ++ name) true sub) := by
  refine ⟨?_, ?_, ?_, ?_⟩
  · intro ip op r xs ys
    induction xs with
    | nil => simp [processEntries]
    | cons e rest ih => simp [processEntries, ih]
  · intro ip op r name h
    simp [processEntry, h]
  · intro ip op r name h
    simp [processEntry, h]
  · intro ip op name sub
    simp [processEntry]

/-- Witness for C8 at concrete entries: a failing supported file is skipped
with a log entry, a succeeding one yields its destination path. -/
theorem directory_batch_partial_failure_witness :
    processEntry "in" "out" true (FsEntry.file "b.jpg" false)
      = ([], ["Skipped " ++ "in" ++ "/" ++ "b.jpg"])
    ∧ processEntry "in" "out" true (FsEntry.file "a.jpg" true)
      = (["out" ++ "/" ++ "a.jpg"], []) :=
  ⟨directory_batch_partial_failure.2.1 "in" "out" true "b.jpg" (by decide),
   directory_batch_partial_failure.2.2.1 "in" "out" true "a.jpg" (by decide)⟩

/-! ## Claim C9: classification totality and lookup -/

theorem classifyExt_eq_image_iff (s : String) :
    classifyExt s = MediaKind.image ↔ s ∈ imageExtensions := by
  unfold classifyExt
  split_ifs with h1 h2 h3 <;> simp_all

theorem classifyExt_eq_pdf_iff (s : String) :
    classifyExt s = MediaKind.pdf ↔ s ∈ pdfExtensions := by
  unfold classifyExt
  constructor
  · intro h
    split_ifs at h with h1 h2 h3
    simp_all
  · intro h
    have hs : s = ".pdf" := by simpa [pdfExtensions] using h
    subst hs
    rfl

theorem classifyExt_eq_audioVideo_iff (s : String) :
    classifyExt s = MediaKind.audioVideo ↔ s ∈ audioExtensions ++ videoExtensions := by
  unfold classifyExt
  constructor
  · intro h
    split_ifs at h with h1 h2 h3
    simp_all
  · intro h
    have hs : s = ".mp3" ∨ s = ".wav" ∨ s = ".flac" ∨ s = ".aac" ∨ s = ".ogg"
        ∨ s = ".mp4" ∨ s = ".mov" ∨ s = ".avi" ∨ s = ".mkv" ∨ s = ".webm" := by
      simpa [audioExtensions, videoExtensions] using h
    rcases hs with rfl | rfl | rfl | rfl | rfl | rfl | rfl | rfl | rfl | rfl <;> rfl

/-- C9: classification of an extension string is a total pure function: it is
insensitive to letter case (the lowercasing is idempotent, so a pre-lowered
input classifies identically), the three supported kinds are characterized
exactly by membership of the lowercased input in the corresponding fixed
tables (the tables store dotted lowercase extensions, so inputs given with the
leading dot hit the tables while any string absent from every table — for
example one without the dot — falls through), and everything in no table
yields unsupported; there is no failure outcome. -/
theorem classification_total_lookup :
    (∀ e, classifyExtension (strLower e) = classifyExtension e)
    ∧ (∀ e, classifyExtension e = MediaKind.image ↔ strLower e ∈ imageExtensions)
    ∧ (∀ e, classifyExtension e = MediaKind.pdf ↔ strLower e ∈ pdfExtensions)
    ∧ (∀ e, classifyExtension e = MediaKind.audioVideo
        ↔ strLower e ∈ audioExtensions ++ videoExtensions)
    ∧ (∀ e, strLower e ∉ allSupportedExtensions
        → classifyExtension e = MediaKind.unsupported) := by
  refine ⟨?_, ?_, ?_, ?_, ?_⟩
  · intro e
    unfold classifyExtension
    rw [strLower_idem]
  · intro e
    exact classifyExt_eq_image_iff (strLower e)
  · intro e
    exact classifyExt_eq_pdf_iff (strLower e)
  · intro e
    exact classifyExt_eq_audioVideo_iff (strLower e)
  · intro e h
    have h1 : strLower e ∉ imageExtensions := fun hm =>
      h (by simp [allSupportedExtensions, List.mem_append, hm])
    have h2 : strLower e ∉ pdfExtensions := fun hm =>
      h (by simp [allSupportedExtensions, List.mem_append, hm])
    have h3 : strLower e ∉ audioExtensions ++ videoExtensions := fun hm => by
      rcases List.mem_append.mp hm with hm' | hm'
      · exact h (by simp [allSupportedExtensions, List.mem_append, hm'])
      · exact h (by simp [allSupportedExtensions, List.mem_append, hm'])
    simp [classifyExtension, classifyExt, h1, h2, h3]

/-- Witness for C9 at concrete extensions: the uppercase dotted form
classifies as image, and an extension in no table is unsupported. -/
theorem classification_total_lookup_witness :
    classifyExtension ".JPG" = MediaKind.image
    ∧ classifyExtension ".xyz" = MediaKind.unsupported :=
  ⟨(classification_total_lookup.2.1 ".JPG").mpr (by decide),
   classification_total_lookup.2.2.2.2 ".xyz" (by decide)⟩

end MediaToolkit
